import Mathlib

/-!
Verification of the task-orchestration and error-aggregation layer of the
`go-utils` repository: the `goctx` package (`TaskContext`, `Run`,
`RunParallel`, `RunParallelWithLimit`) and the `taskrunner` package
(`SimpleTaskRunner` with `Then` / `Parallel` / `Result`).

Modelling conventions (shallow embedding of the Go source):
* A Go `error` value is `Option GoErr`; `nil` is `none`.
* `errors.Join(errs...)` discards `nil` values, returns `nil` when nothing
  remains, and otherwise wraps the remaining errors (even a single one) in a
  join node, in order.  `fmt.Errorf("tag: %w", err)` is `GoErr.wrap "tag" err`.
* A `context.Context` in the parent chain is `Ctx`: either a plain context,
  of which only the value returned by its `Err()` method matters
  (`Ctx.base`), or a `*TaskContext` (`Ctx.task`), whose mutable fields
  (`err`, `multiErr`) form a `TCState`.
* A task (`RunFn[T] = func() (T, error)`) is called at most once by every
  strategy, so it is represented by the pair it would return.
* Goroutine interleavings: the only shared-state races in `RunParallel` /
  `RunParallelWithLimit` are the mutex-protected `AddError` calls and, in the
  pipeline, the order in which concurrent steps touch the shared request and
  the order in which their errors are collected.  Each execution is
  linearised by an explicit schedule `sched : List Nat`, the order in which
  the per-task critical sections commit; a schedule corresponds to a real
  run when it is a permutation of the task indices.
* `panic` and permanent blocking are modelled with `Except GoFailure`.
* Each strategy additionally reports which tasks it actually invoked
  (`invoked`); the Go functions call each `fn()` exactly where the model
  records an invocation.
-/

namespace GoUtils

/-- Go error values: a leaf error, a `fmt.Errorf("tag: %w", cause)` wrapper,
or the result of `errors.Join` applied to a non-empty list of non-nil
errors. -/
inductive GoErr : Type where
  | base : String → GoErr
  | wrap : String → GoErr → GoErr
  | join : List GoErr → GoErr

/-- `errors.Join(errs...)`: drop the `nil` entries; `nil` if none remain,
otherwise a join node holding the remaining errors in order. -/
def goJoin (errs : List (Option GoErr)) : Option GoErr :=
  if (errs.filterMap id).isEmpty then none else some (.join (errs.filterMap id))

/-- The mutable error state of a `TaskContext`: the primary error field
`err` and the ordered collection `multiErr`. -/
structure TCState : Type where
  err : Option GoErr
  multiErr : List GoErr

/-- A `context.Context` as seen by this package: a plain parent context,
represented by the result of its `Err()` method (cancellation or deadline
state), or a `*TaskContext` wrapping a parent with its own error state. -/
inductive Ctx : Type where
  | base : Option GoErr → Ctx
  | task : Ctx → TCState → Ctx

/-- Body shared by `TaskContext.WithError` and `TaskContext.AddError`:
a `nil` error is ignored; otherwise it is appended to `multiErr` and the
primary `err` is set to it, or joined with the previous primary via
`errors.Join(c.err, err)`. -/
def addErrorSt (st : TCState) (e : Option GoErr) : TCState :=
  match e with
  | none => st
  | some g =>
      ⟨some (match st.err with
             | none => g
             | some p => .join [p, g]),
       st.multiErr ++ [g]⟩

/-- `TaskContext.Err`: first the parent context's `Err()`; then, if the
parent is itself a `*TaskContext`, that parent's `err` field; finally the
context's own `err` field. -/
def Ctx.ctxErr : Ctx → Option GoErr
  | .base e => e
  | .task parent st =>
      match parent.ctxErr with
      | some e => some e
      | none =>
          match parent with
          | .task _ pst =>
              match pst.err with
              | some e => some e
              | none => st.err
          | .base _ => st.err

/-- A `*TaskContext` value: the wrapped parent context and the local error
state. -/
structure TaskContext : Type where
  parent : Ctx
  state : TCState

/-- `TaskContext.Err` of a concrete `*TaskContext`. -/
def TaskContext.Err (c : TaskContext) : Option GoErr :=
  Ctx.ctxErr (.task c.parent c.state)

/-- `TaskContext.AddError`. -/
def TaskContext.AddError (c : TaskContext) (e : Option GoErr) : TaskContext :=
  ⟨c.parent, addErrorSt c.state e⟩

/-- `TaskContext.WithError` (same state change as `AddError`; in Go it also
returns the receiver). -/
def TaskContext.WithError (c : TaskContext) (e : GoErr) : TaskContext :=
  ⟨c.parent, addErrorSt c.state (some e)⟩

/-- `TaskContext.Errors`: `nil` when `multiErr` is empty, otherwise
`errors.Join(multiErr...)`. -/
def TaskContext.Errors (c : TaskContext) : Option GoErr :=
  if c.state.multiErr.isEmpty then none else some (.join c.state.multiErr)

/-- `NewTaskContext(parent)`: panics (modelled as `Except.error` with the
panic message) when the parent is `nil`, otherwise wraps the parent with
fresh error state. -/
def NewTaskContext (parent : Option Ctx) : Except String TaskContext :=
  match parent with
  | none => .error "cannot create context from nil parent"
  | some p => .ok ⟨p, ⟨none, []⟩⟩

/-- The recorded error field of a context when it is a `*TaskContext`
(`tc.err` in the second check of `TaskContext.Err`); `none` for a plain
context. -/
def parentRecorded : Ctx → Option GoErr
  | .base _ => none
  | .task _ st => st.err

/-- Error states reachable through the package's own operations: a fresh
state from `NewTaskContext` followed by any sequence of
`AddError`/`WithError` calls. -/
inductive TCReach : TCState → Prop where
  | new : TCReach ⟨none, []⟩
  | add (e : Option GoErr) {st : TCState} : TCReach st → TCReach (addErrorSt st e)

/-- Output of `Run`: the context after the call, the returned value, and
how many times the supplied task was invoked. -/
structure RunOut (T : Type) : Type where
  ctx : TaskContext
  value : T
  invoked : Nat

/-- `Run(ctx, fn)`: short-circuit on `ctx.Err()`; otherwise call the task
once; on task failure record it with `WithError` and return the zero value
(`zero` models Go's zero value of `T`). -/
def Run {T : Type} (c : TaskContext) (zero : T) (fn : T × Option GoErr) : RunOut T :=
  match TaskContext.Err c with
  | some _ => ⟨c, zero, 0⟩
  | none =>
      match fn with
      | (_, some e) => ⟨TaskContext.WithError c e, zero, 1⟩
      | (result, none) => ⟨c, result, 1⟩

/-- The tag `fmt.Errorf("task %d: %w", i+1, err)` puts on task `i`'s
error. -/
def taskTag (i : Nat) (e : GoErr) : GoErr :=
  .wrap ("task " ++ toString (i + 1)) e

/-- The error task `i` causes to be recorded: `some (taskTag i e)` when the
`i`-th task exists and fails with `e`, `none` otherwise. -/
def recordedOf {T : Type} (fns : List (T × Option GoErr)) (i : Nat) : Option GoErr :=
  match fns[i]? with
  | some (_, some e) => some (taskTag i e)
  | _ => none

/-- The commit of task `i`'s goroutine on the shared context: `AddError` of
its tagged error when it failed, no change when it succeeded. -/
def parStep {T : Type} (fns : List (T × Option GoErr)) (c : TaskContext) (i : Nat) : TaskContext :=
  TaskContext.AddError c (recordedOf fns i)

/-- The result slice: pre-sized with zero values (`make([]T, len(fns))`),
position `i` overwritten with task `i`'s value exactly when it succeeded. -/
def resultsOf {T : Type} (zero : T) (fns : List (T × Option GoErr)) : List T :=
  fns.map (fun p => match p.2 with | none => p.1 | some _ => zero)

/-- Output of the parallel strategies: final context, result slice
(`[]` models the `nil` slice of the short-circuit return), returned error,
and the indices of the tasks that were invoked. -/
structure ParResult (T : Type) : Type where
  ctx : TaskContext
  results : List T
  err : Option GoErr
  invoked : List Nat

/-- `RunParallel(ctx, fns...)`: short-circuit on `ctx.Err()` returning the
`nil` slice and that error; otherwise every task runs, failures commit
their tagged errors in schedule order, and the call returns the positional
results together with `ctx.Errors()` after all tasks finished. -/
def RunParallel {T : Type} (sched : List Nat) (c : TaskContext) (zero : T)
    (fns : List (T × Option GoErr)) : ParResult T :=
  match TaskContext.Err c with
  | some e => ⟨c, [], some e, []⟩
  | none =>
      let c2 := sched.foldl (parStep fns) c
      ⟨c2, resultsOf zero fns, TaskContext.Errors c2, List.range fns.length⟩

/-- Fatal outcomes of a Go function: a runtime panic with its message, or a
permanent block of the calling goroutine (deadlock). -/
inductive GoFailure : Type where
  | panicked : String → GoFailure
  | deadlock : GoFailure

/-- Whether a fatal outcome is a panic (as opposed to a permanent block). -/
def GoFailure.isPanic : GoFailure → Bool
  | .panicked _ => true
  | .deadlock => false

/-- `RunParallelWithLimit(ctx, limit, fns...)`: the `ctx.Err()`
short-circuit comes first; then `make(chan struct{}, limit)` panics for a
negative limit; with `limit = 0` the admission channel is unbuffered, every
goroutine blocks forever on `sem <- struct{}{}` before calling its task, so
`wg.Wait()` never returns when there is at least one task; otherwise the
semantics coincide with `RunParallel` (the limit only constrains timing). -/
def RunParallelWithLimit {T : Type} (sched : List Nat) (c : TaskContext) (limit : Int)
    (zero : T) (fns : List (T × Option GoErr)) : Except GoFailure (ParResult T) :=
  match TaskContext.Err c with
  | some e => .ok ⟨c, [], some e, []⟩
  | none =>
      if limit < 0 then .error (.panicked "makechan: size out of range")
      else if limit = 0 ∧ fns.isEmpty = false then .error .deadlock
      else
        let c2 := sched.foldl (parStep fns) c
        .ok ⟨c2, resultsOf zero fns, TaskContext.Errors c2, List.range fns.length⟩

/-- `TaskExecutor[T] = func(ctx, *T) error`: a serial pipeline step,
modelled as a pure transformer of the shared request that also returns its
error. -/
def TaskExecutor (T : Type) : Type := Ctx → T → T × Option GoErr

/-- `ParallelExecutor[T] = func(ctx, *T, *sync.RWMutex) error`: a concurrent
pipeline step; the lock argument carries no pure content (honor system), so
the model is the same shape as a serial step. -/
def ParallelExecutor (T : Type) : Type := Ctx → T → T × Option GoErr

/-- `SimpleTaskRunner`: the supplied context, the shared request, and the
appended serial and concurrent steps. -/
structure SimpleTaskRunner (T : Type) : Type where
  ctx : Ctx
  taskReq : T
  tasks : List (TaskExecutor T)
  parallelTasks : List (ParallelExecutor T)

/-- `NewSimpleTaskRunner(ctx, taskReq)`. -/
def NewSimpleTaskRunner {T : Type} (ctx : Ctx) (req : T) : SimpleTaskRunner T :=
  ⟨ctx, req, [], []⟩

/-- `Then(taskExec)`: append a serial step. -/
def SimpleTaskRunner.Then {T : Type} (s : SimpleTaskRunner T) (t : TaskExecutor T) :
    SimpleTaskRunner T :=
  { s with tasks := s.tasks ++ [t] }

/-- `Parallel(parallelExec)`: append a concurrent step. -/
def SimpleTaskRunner.Parallel {T : Type} (s : SimpleTaskRunner T) (t : ParallelExecutor T) :
    SimpleTaskRunner T :=
  { s with parallelTasks := s.parallelTasks ++ [t] }

/-- Output of `serialExecutor`: the shared request it reached, its error,
and how many serial steps it invoked. -/
structure SerialOut (T : Type) : Type where
  req : T
  err : Option GoErr
  invoked : Nat

/-- `serialExecutor`: run the serial steps in order, returning at the first
step that fails; later steps are not invoked. -/
def serialExecutor {T : Type} (ctx : Ctx) : List (TaskExecutor T) → T → SerialOut T
  | [], req => ⟨req, none, 0⟩
  | t :: rest, req =>
      match t ctx req with
      | (req2, some e) => ⟨req2, some e, 1⟩
      | (req2, none) =>
          let o := serialExecutor ctx rest req2
          ⟨o.req, o.err, o.invoked + 1⟩

/-- Run a list of serial steps assuming they all succeed: `some` of the
final request when none fails, `none` as soon as one fails.  Used to state
which prefix of the serial list succeeds. -/
def runAllOk {T : Type} (ctx : Ctx) : List (TaskExecutor T) → T → Option T
  | [], req => some req
  | t :: rest, req =>
      match t ctx req with
      | (req2, none) => runAllOk ctx rest req2
      | (_, some _) => none

/-- Output of `parallelExecutor`: the shared request after all concurrent
steps, the accumulated error, and the invoked step indices in schedule
order. -/
structure ParOut (T : Type) : Type where
  req : T
  err : Option GoErr
  invoked : List Nat

/-- One concurrent step committing in the linearisation: run step `i` on
the request state it observes and fold its error into the collector the way
the `errChan` loop does (`err = errors.Join(err, goErr)` only for non-nil
`goErr`). -/
def parStepP {T : Type} (ctx : Ctx) (ptasks : List (ParallelExecutor T))
    (acc : ParOut T) (i : Nat) : ParOut T :=
  match ptasks[i]? with
  | none => acc
  | some t =>
      match t ctx acc.req with
      | (req2, ge) =>
          ⟨req2,
           match ge with
           | none => acc.err
           | some g => goJoin [acc.err, some g],
           acc.invoked ++ [i]⟩

/-- `parallelExecutor`: all concurrent steps run; the schedule linearises
the order in which they act on the shared request and deliver their errors
to the collector. -/
def parallelExecutor {T : Type} (sched : List Nat) (ctx : Ctx)
    (ptasks : List (ParallelExecutor T)) (req : T) : ParOut T :=
  sched.foldl (parStepP ctx ptasks) ⟨req, none, []⟩

/-- Output of `Result`: the shared request, the joined error, and the
invocation counts of both executors. -/
structure PipeOut (T : Type) : Type where
  req : T
  err : Option GoErr
  serialInvoked : Nat
  parallelInvoked : List Nat

/-- `Result()`: run the serial executor, then unconditionally the parallel
executor on the request state the serial phase reached, and return
`errors.Join(serialErr, parallelErr)` with the final request. -/
def SimpleTaskRunner.Result {T : Type} (sched : List Nat) (s : SimpleTaskRunner T) : PipeOut T :=
  let so := serialExecutor s.ctx s.tasks s.taskReq
  let po := parallelExecutor sched s.ctx s.parallelTasks so.req
  ⟨po.req, goJoin [so.err, po.err], so.invoked, po.invoked⟩

/-! ### Helper lemmas -/

/-- Folding `AddError` over a list of optional errors appends exactly the
present ones, in order, to `multiErr`. -/
theorem foldl_addError_multiErr (es : List (Option GoErr)) (c : TaskContext) :
    (es.foldl TaskContext.AddError c).state.multiErr
      = c.state.multiErr ++ es.filterMap id := by
  induction es generalizing c with
  | nil => simp
  | cons e rest ih =>
      cases e with
      | none =>
          simpa [TaskContext.AddError, addErrorSt] using ih c
      | some g =>
          simp only [List.foldl_cons, ih, List.filterMap_cons]
          simp [TaskContext.AddError, addErrorSt, List.append_assoc]

/-- Folding the per-task commits of the parallel strategies over a schedule
appends exactly the tagged errors of the scheduled failing tasks, in
schedule order. -/
theorem foldl_parStep_multiErr {T : Type} (fns : List (T × Option GoErr))
    (sched : List Nat) (c : TaskContext) :
    (sched.foldl (parStep fns) c).state.multiErr
      = c.state.multiErr ++ sched.filterMap (recordedOf fns) := by
  induction sched generalizing c with
  | nil => simp
  | cons i rest ih =>
      simp only [List.foldl_cons, List.filterMap_cons, parStep]
      cases h : recordedOf fns i with
      | none => simpa [TaskContext.AddError, addErrorSt] using ih _
      | some g =>
          rw [ih]
          simp [TaskContext.AddError, addErrorSt, List.append_assoc]

/-- The parent is untouched by the per-task commits. -/
theorem foldl_parStep_parent {T : Type} (fns : List (T × Option GoErr))
    (sched : List Nat) (c : TaskContext) :
    (sched.foldl (parStep fns) c).parent = c.parent := by
  induction sched generalizing c with
  | nil => rfl
  | cons i rest ih =>
      simp only [List.foldl_cons]
      rw [ih]
      cases h : recordedOf fns i <;> simp [parStep, TaskContext.AddError, addErrorSt]

/-- If a `TaskContext`'s `Err` is absent, its own primary error field is
absent. -/
theorem err_none_own (parent : Ctx) (st : TCState)
    (h : TaskContext.Err ⟨parent, st⟩ = none) : st.err = none := by
  unfold TaskContext.Err Ctx.ctxErr at h
  cases hp : Ctx.ctxErr parent with
  | some e => simp [hp] at h
  | none =>
      cases parent with
      | base e0 => simpa [hp] using h
      | task q pst =>
          cases hq : pst.err with
          | some e => simp [hp, hq] at h
          | none => simpa [hp, hq] using h

/-- On states reachable through the package's own operations, the primary
error is absent exactly when the collection is empty. -/
theorem tcreach_err_iff_multiErr {st : TCState} (h : TCReach st) :
    st.err = none ↔ st.multiErr = [] := by
  induction h with
  | new => simp
  | add e st ih =>
      cases e with
      | none => simpa [addErrorSt] using ih
      | some g => simp [addErrorSt]

/-! ### C1: resolution order of `TaskContext.Err` -/

/-- C1: `Err()` resolves in a fixed order: the wrapped parent context's own
error is returned unconditionally when non-absent, regardless of locally
recorded task errors; otherwise, when the parent is itself a `TaskContext`,
that ancestor's recorded primary error is returned when non-absent;
otherwise the context's own recorded primary error is returned; `Err()` is
absent exactly when all three are absent.  (The final conjunct records that
the source's second check is subsumed by the first: a parent `TaskContext`
whose `Err()` is absent has an absent recorded primary error.) -/
theorem c1_err_resolution_order (parent : Ctx) (st : TCState) :
    (∀ e, Ctx.ctxErr parent = some e → TaskContext.Err ⟨parent, st⟩ = some e)
    ∧ (Ctx.ctxErr parent = none → ∀ e, parentRecorded parent = some e →
        TaskContext.Err ⟨parent, st⟩ = some e)
    ∧ (Ctx.ctxErr parent = none → parentRecorded parent = none →
        TaskContext.Err ⟨parent, st⟩ = st.err)
    ∧ (TaskContext.Err ⟨parent, st⟩ = none ↔
        Ctx.ctxErr parent = none ∧ parentRecorded parent = none ∧ st.err = none)
    ∧ (Ctx.ctxErr parent = none → parentRecorded parent = none) := by
  have hsub : Ctx.ctxErr parent = none → parentRecorded parent = none := by
    intro hp
    cases parent with
    | base e0 => rfl
    | task q pst =>
        unfold Ctx.ctxErr at hp
        cases hq : Ctx.ctxErr q with
        | some e => simp [hq] at hp
        | none =>
            cases q with
            | base e0 => simpa [parentRecorded, hq] using hp
            | task r rst =>
                cases hr : rst.err with
                | some e => simp [hq, hr] at hp
                | none =>
                    cases hpe : pst.err with
                    | some e => simp [hq, hr, hpe] at hp
                    | none => simp [parentRecorded, hpe]
  refine ⟨?_, ?_, ?_, ?_, hsub⟩
  · intro e he
    unfold TaskContext.Err Ctx.ctxErr
    simp [he]
  · intro hp e he
    rw [hsub hp] at he
    exact absurd he (by simp)
  · intro hp _
    unfold TaskContext.Err Ctx.ctxErr
    cases parent with
    | base e0 => simp [hp]
    | task q pst =>
        have : pst.err = none := hsub hp
        simp [hp, this]
  · constructor
    · intro h
      have hown := err_none_own parent st h
      unfold TaskContext.Err Ctx.ctxErr at h
      cases hp : Ctx.ctxErr parent with
      | some e => simp [hp] at h
      | none => exact ⟨rfl, hsub hp, hown⟩
    · intro ⟨hp, hrec, hown⟩
      unfold TaskContext.Err Ctx.ctxErr
      cases parent with
      | base e0 => simpa [hp] using hown
      | task q pst =>
          simp only [parentRecorded] at hrec
          simp [hp, hrec, hown]

/-- Concrete instance of C1: a cancelled parent wins over a locally
recorded task error. -/
theorem c1_err_resolution_order_witness :
    TaskContext.Err ⟨Ctx.base (some (GoErr.base "context canceled")),
        ⟨some (GoErr.base "local task error"), [GoErr.base "local task error"]⟩⟩
      = some (GoErr.base "context canceled") :=
  (c1_err_resolution_order (Ctx.base (some (GoErr.base "context canceled")))
      ⟨some (GoErr.base "local task error"), [GoErr.base "local task error"]⟩).1
    (GoErr.base "context canceled") rfl

/-! ### C9: construction from a nil parent -/

/-- C9: `NewTaskContext` panics (never returns normally, modelled as
`Except.error` carrying the panic message) on a nil parent, and for every
non-nil parent returns a context wrapping exactly that parent with fresh
error state. -/
theorem c9_new_task_context :
    NewTaskContext none = .error "cannot create context from nil parent"
    ∧ ∀ p : Ctx, NewTaskContext (some p) = .ok ⟨p, ⟨none, []⟩⟩ :=
  ⟨rfl, fun _ => rfl⟩

/-! ### C8: single-task `Run` on a clean context -/

/-- C8: on a context whose `Err()` is absent, `Run` invokes the task exactly
once; a succeeding task's value is returned unchanged and nothing is
recorded (the context is returned as it was); a failing task's error is
recorded on the context (appended to its collection and reflected in its
primary error) and the zero value is returned; `Run` never raises (it is a
total function into `RunOut`). -/
theorem c8_run_single {T : Type} (c : TaskContext) (zero v : T) (e : GoErr)
    (h : TaskContext.Err c = none) :
    Run c zero (v, none) = ⟨c, v, 1⟩
    ∧ Run c zero (v, some e) = ⟨TaskContext.WithError c e, zero, 1⟩
    ∧ (TaskContext.WithError c e).state.multiErr = c.state.multiErr ++ [e]
    ∧ (TaskContext.WithError c e).state.err ≠ none := by
  refine ⟨?_, ?_, ?_, ?_⟩
  · simp [Run, h]
  · simp [Run, h]
  · simp [TaskContext.WithError, addErrorSt]
  · cases hc : c.state.err <;> simp [TaskContext.WithError, addErrorSt, hc]

/-- Concrete instance of C8: a failing task is recorded and the zero value
comes back; a succeeding task's value comes back unchanged. -/
theorem c8_run_single_witness :
    Run ⟨Ctx.base none, ⟨none, []⟩⟩ (0 : Nat) (7, none)
      = ⟨⟨Ctx.base none, ⟨none, []⟩⟩, 7, 1⟩
    ∧ (Run ⟨Ctx.base none, ⟨none, []⟩⟩ (0 : Nat) (7, some (GoErr.base "boom"))).ctx.state.multiErr
      = [GoErr.base "boom"] := by
  have h := c8_run_single (T := Nat) ⟨Ctx.base none, ⟨none, []⟩⟩ 0 7 (GoErr.base "boom") rfl
  refine ⟨h.1, ?_⟩
  rw [h.2.1]
  simpa using h.2.2.1

/-! ### C4: fail-fast short-circuit of all three strategies -/

/-- C4: when `ctx.Err()` is already non-absent, `Run`, `RunParallel` and
`RunParallelWithLimit` all return immediately without invoking any supplied
task; the parallel variants return exactly that existing error, and `Run`
returns the zero value with the context untouched, so the error stays
observable through `ctx.Err()`. -/
theorem c4_fail_fast {T : Type} (c : TaskContext) (e : GoErr) (zero : T)
    (fn : T × Option GoErr) (fns : List (T × Option GoErr)) (sched : List Nat)
    (limit : Int) (h : TaskContext.Err c = some e) :
    Run c zero fn = ⟨c, zero, 0⟩
    ∧ RunParallel sched c zero fns = ⟨c, [], some e, []⟩
    ∧ RunParallelWithLimit sched c limit zero fns = .ok ⟨c, [], some e, []⟩
    ∧ TaskContext.Err (Run c zero fn).ctx = some e := by
  refine ⟨?_, ?_, ?_, ?_⟩
  · simp [Run, h]
  · simp [RunParallel, h]
  · simp [RunParallelWithLimit, h]
  · simp [Run, h]

/-- Concrete instance of C4: with a cancelled parent, no task runs and the
cancellation error is what the parallel variant returns. -/
theorem c4_fail_fast_witness :
    Run ⟨Ctx.base (some (GoErr.base "deadline exceeded")), ⟨none, []⟩⟩ (0 : Nat) (3, none)
      = ⟨⟨Ctx.base (some (GoErr.base "deadline exceeded")), ⟨none, []⟩⟩, 0, 0⟩
    ∧ (RunParallel [0] ⟨Ctx.base (some (GoErr.base "deadline exceeded")), ⟨none, []⟩⟩
        (0 : Nat) [(3, none)]).err = some (GoErr.base "deadline exceeded") := by
  have h := c4_fail_fast (T := Nat)
      ⟨Ctx.base (some (GoErr.base "deadline exceeded")), ⟨none, []⟩⟩
      (GoErr.base "deadline exceeded") 0 (3, none) [(3, none)] [0] 2 rfl
  exact ⟨h.1, by rw [h.2.1]⟩

/-! ### C6: `Errors()` joins exactly the recorded errors -/

/-- C6: after recording a sequence of optional errors on a fresh context
(and nothing else), `Errors()` is the join of exactly the non-absent ones,
in insertion order, and is absent exactly when none were non-absent; the
collection itself equals that list; recording an absent error is a no-op;
and `Errors()` never depends on the parent chain, so ancestor and
parent-cancellation errors are never included. -/
theorem c6_errors_join (parent : Ctx) (es : List (Option GoErr)) :
    TaskContext.Errors (es.foldl TaskContext.AddError ⟨parent, ⟨none, []⟩⟩)
      = (if (es.filterMap id).isEmpty then none
         else some (GoErr.join (es.filterMap id)))
    ∧ (es.foldl TaskContext.AddError ⟨parent, ⟨none, []⟩⟩).state.multiErr
      = es.filterMap id
    ∧ (TaskContext.Errors (es.foldl TaskContext.AddError ⟨parent, ⟨none, []⟩⟩) = none
        ↔ es.filterMap id = [])
    ∧ (∀ c : TaskContext, TaskContext.AddError c none = c)
    ∧ (∀ q : Ctx, ∀ st : TCState,
        TaskContext.Errors ⟨q, st⟩ = TaskContext.Errors ⟨parent, st⟩) := by
  have hm : (es.foldl TaskContext.AddError ⟨parent, ⟨none, []⟩⟩).state.multiErr
      = es.filterMap id := by
    simpa using foldl_addError_multiErr es ⟨parent, ⟨none, []⟩⟩
  refine ⟨?_, hm, ?_, ?_, ?_⟩
  · rw [TaskContext.Errors, hm]
  · rw [TaskContext.Errors, hm]
    cases h : (es.filterMap id).isEmpty with
    | true => simpa using List.isEmpty_iff.mp h
    | false =>
        have : es.filterMap id ≠ [] := by
          intro hnil
          rw [hnil] at h
          simp at h
        simp [h, this]
  · intro c
    rfl
  · intro q st
    rfl

/-- Concrete instance of C6: recording `e1`, an absent error, then `e2`
yields the ordered join of `e1` and `e2`. -/
theorem c6_errors_join_witness :
    TaskContext.Errors
        ([some (GoErr.base "e1"), none, some (GoErr.base "e2")].foldl
          TaskContext.AddError ⟨Ctx.base none, ⟨none, []⟩⟩)
      = some (GoErr.join [GoErr.base "e1", GoErr.base "e2"]) := by
  have h := (c6_errors_join (Ctx.base none)
      [some (GoErr.base "e1"), none, some (GoErr.base "e2")]).1
  simpa using h

/-! ### C2 and C3: `RunParallel` results and aggregate -/

/-- A fresh `TaskContext` on a live plain parent. -/
def freshCtx : TaskContext := ⟨Ctx.base none, ⟨none, []⟩⟩

/-- A `TaskContext` whose plain parent is already cancelled. -/
def cancelledCtx : TaskContext :=
  ⟨Ctx.base (some (GoErr.base "context canceled")), ⟨none, []⟩⟩

/-- A `TaskContext` carrying one error recorded before the call under
scrutiny. -/
def priorCtx : TaskContext :=
  ⟨Ctx.base none, addErrorSt ⟨none, []⟩ (some (GoErr.base "prior"))⟩

/-- Counterexample to C2 as stated: on a context whose parent is already
cancelled, `RunParallel` with one task returns the `nil` slice, whose
length is `0`, not `1`. -/
theorem c2_counterexample :
    (RunParallel [0] cancelledCtx (0 : Nat) [((7 : Nat), none)]).results.length ≠ 1 := by
  decide

/-- C2 (amended: the context's `Err()` is absent when the call is made):
`RunParallel` with `k` tasks returns a value sequence of length exactly
`k`; position `i` holds task `i`'s value when it succeeds and the zero
value when it fails, independently of the schedule; and a failing task
`i`'s error is recorded wrapped with the 1-based tag `"task i+1"`. -/
theorem c2_runparallel_positional {T : Type} (c : TaskContext) (sched : List Nat)
    (zero : T) (fns : List (T × Option GoErr))
    (h : TaskContext.Err c = none)
    (hperm : sched.Perm (List.range fns.length)) :
    (RunParallel sched c zero fns).results.length = fns.length
    ∧ (∀ i : Nat, ∀ v : T, fns[i]? = some (v, none) →
        (RunParallel sched c zero fns).results[i]? = some v)
    ∧ (∀ i : Nat, ∀ v : T, ∀ e : GoErr, fns[i]? = some (v, some e) →
        (RunParallel sched c zero fns).results[i]? = some zero
        ∧ taskTag i e ∈ (RunParallel sched c zero fns).ctx.state.multiErr) := by
  have hrun : RunParallel sched c zero fns
      = ⟨sched.foldl (parStep fns) c, resultsOf zero fns,
         TaskContext.Errors (sched.foldl (parStep fns) c), List.range fns.length⟩ := by
    simp [RunParallel, h]
  refine ⟨?_, ?_, ?_⟩
  · rw [hrun]
    simp [resultsOf]
  · intro i v hi
    rw [hrun]
    simp [resultsOf, hi]
  · intro i v e hi
    have hilt : i < fns.length := by
      rcases List.getElem?_eq_some_iff.mp hi with ⟨hl, _⟩
      exact hl
    have hrec : recordedOf fns i = some (taskTag i e) := by
      simp [recordedOf, hi]
    refine ⟨?_, ?_⟩
    · rw [hrun]
      simp [resultsOf, hi]
    · rw [hrun]
      simp only [foldl_parStep_multiErr]
      refine List.mem_append.mpr (Or.inr ?_)
      refine List.mem_filterMap.mpr ⟨i, ?_, hrec⟩
      exact hperm.mem_iff.mpr (List.mem_range.mpr hilt)

/-- Concrete instance of the amended C2: two tasks, the second failing;
position 0 holds the produced value, position 1 holds the zero value, and
the failure is recorded tagged `"task 2"`. -/
theorem c2_runparallel_positional_witness :
    (RunParallel (List.range 2) freshCtx (0 : Nat)
        [(7, none), (9, some (GoErr.base "boom"))]).results[0]? = some 7
    ∧ (RunParallel (List.range 2) freshCtx (0 : Nat)
        [(7, none), (9, some (GoErr.base "boom"))]).results[1]? = some 0
    ∧ taskTag 1 (GoErr.base "boom")
        ∈ (RunParallel (List.range 2) freshCtx (0 : Nat)
            [(7, none), (9, some (GoErr.base "boom"))]).ctx.state.multiErr := by
  have h := c2_runparallel_positional freshCtx (List.range 2) 0
      [(7, none), (9, some (GoErr.base "boom"))] rfl (List.Perm.refl _)
  exact ⟨h.2.1 0 7 rfl,
    (h.2.2 1 9 (GoErr.base "boom") rfl).1,
    (h.2.2 1 9 (GoErr.base "boom") rfl).2⟩

/-- Counterexample to C3 as stated: on a context with one error recorded
before the call, `RunParallel` returns that pre-existing error even though
nothing was recorded during the call (the collection is unchanged), so the
returned error is not the aggregate of exactly the errors recorded during
the call (which would be absent). -/
theorem c3_counterexample :
    (RunParallel [0] priorCtx (0 : Nat) [((5 : Nat), none)]).err
      = some (GoErr.base "prior")
    ∧ (RunParallel [0] priorCtx (0 : Nat) [((5 : Nat), none)]).ctx.state.multiErr
      = priorCtx.state.multiErr := by
  exact ⟨rfl, rfl⟩

/-- C3 (amended: the context's `Err()` is absent when the call is made and
its state is reachable through the package's own operations, which forces
the pre-call collection to be empty): the error `RunParallel` returns is
the join of exactly the errors recorded during that call, in schedule
order; after the call the collection holds exactly those errors; every
launched task has finished before the return (all `k` tasks were invoked);
and `RunParallelWithLimit` with any admissible limit (`limit ≥ 1`) returns
exactly the same result on this clean path, so the same aggregate holds for
it. -/
theorem c3_aggregate_of_call {T : Type} (c : TaskContext) (sched : List Nat)
    (zero : T) (fns : List (T × Option GoErr))
    (hr : TCReach c.state) (h : TaskContext.Err c = none)
    (hperm : sched.Perm (List.range fns.length)) :
    (RunParallel sched c zero fns).err
      = (if (sched.filterMap (recordedOf fns)).isEmpty then none
         else some (GoErr.join (sched.filterMap (recordedOf fns))))
    ∧ (RunParallel sched c zero fns).ctx.state.multiErr
      = sched.filterMap (recordedOf fns)
    ∧ (RunParallel sched c zero fns).invoked = List.range fns.length
    ∧ (∀ limit : Int, 1 ≤ limit →
        RunParallelWithLimit sched c limit zero fns
          = .ok (RunParallel sched c zero fns)) := by
  have hown : c.state.err = none := err_none_own c.parent c.state h
  have hempty : c.state.multiErr = [] := (tcreach_err_iff_multiErr hr).mp hown
  have hrun : RunParallel sched c zero fns
      = ⟨sched.foldl (parStep fns) c, resultsOf zero fns,
         TaskContext.Errors (sched.foldl (parStep fns) c), List.range fns.length⟩ := by
    simp [RunParallel, h]
  have hm : (sched.foldl (parStep fns) c).state.multiErr
      = sched.filterMap (recordedOf fns) := by
    rw [foldl_parStep_multiErr, hempty]
    simp
  refine ⟨?_, ?_, ?_, ?_⟩
  · rw [hrun]
    show TaskContext.Errors (sched.foldl (parStep fns) c) = _
    rw [TaskContext.Errors, hm]
  · rw [hrun]
    exact hm
  · rw [hrun]
  · intro limit hl
    have h1 : ¬ limit < 0 := by omega
    have h2 : ¬ limit = 0 := by omega
    rw [hrun]
    simp [RunParallelWithLimit, h, h1, h2]

/-- Concrete instance of the amended C3: one failing task; the returned
error is the join of exactly the one error recorded during the call, and
`RunParallelWithLimit` with limit 2 returns the same result on this clean
path. -/
theorem c3_aggregate_of_call_witness :
    (RunParallel (List.range 1) freshCtx (0 : Nat)
        [((4 : Nat), some (GoErr.base "b1"))]).err
      = some (GoErr.join [taskTag 0 (GoErr.base "b1")])
    ∧ RunParallelWithLimit (List.range 1) freshCtx 2 (0 : Nat)
        [((4 : Nat), some (GoErr.base "b1"))]
      = .ok (RunParallel (List.range 1) freshCtx (0 : Nat)
          [((4 : Nat), some (GoErr.base "b1"))]) := by
  have h := c3_aggregate_of_call freshCtx (List.range 1) 0
      [((4 : Nat), some (GoErr.base "b1"))] TCReach.new rfl (List.Perm.refl _)
  exact ⟨by simpa using h.1, h.2.2.2 2 (by decide)⟩

/-! ### C7: non-positive limit in `RunParallelWithLimit` -/

/-- Counterexample to C7 as stated: with `limit = 0`, one task and a clean
context, `RunParallelWithLimit` does not fail through an explicit guard (no
panic); it proceeds into the state the claim rules out, where no task can
ever be admitted: every goroutine blocks forever on the unbuffered
admission channel and the call never returns (modelled as `deadlock`). -/
theorem c7_counterexample :
    RunParallelWithLimit [0] freshCtx 0 (0 : Nat) [((1 : Nat), none)]
      = .error GoFailure.deadlock
    ∧ GoFailure.isPanic GoFailure.deadlock = false :=
  ⟨rfl, rfl⟩

/-- C7 (amended: the code has no explicit guard): on a clean context, a
negative limit is fatal only because constructing the admission channel
panics at runtime, before any task is admitted; a zero limit is not caught
at all — the call proceeds into a state where no task can ever be admitted
and blocks forever whenever at least one task was supplied (and with no
tasks it trivially returns the empty result). -/
theorem c7_no_guard {T : Type} (c : TaskContext) (sched : List Nat) (limit : Int)
    (zero : T) (fns : List (T × Option GoErr))
    (h : TaskContext.Err c = none) :
    (limit < 0 →
        RunParallelWithLimit sched c limit zero fns
          = .error (.panicked "makechan: size out of range"))
    ∧ (limit = 0 → fns.isEmpty = false →
        RunParallelWithLimit sched c limit zero fns = .error .deadlock)
    ∧ (limit = 0 → fns = [] →
        RunParallelWithLimit sched c limit zero fns
          = .ok ⟨sched.foldl (parStep fns) c, [], TaskContext.Errors (sched.foldl (parStep fns) c), []⟩) := by
  refine ⟨?_, ?_, ?_⟩
  · intro hneg
    simp [RunParallelWithLimit, h, hneg]
  · intro hz hne
    have : ¬ limit < 0 := by omega
    simp [RunParallelWithLimit, h, this, hz, hne]
  · intro hz hnil
    subst hnil
    have : ¬ limit < 0 := by omega
    simp [RunParallelWithLimit, h, this, hz, resultsOf]

/-- Concrete instance of the amended C7: a negative limit panics on the
admission-channel construction. -/
theorem c7_no_guard_witness :
    RunParallelWithLimit [0] freshCtx (-1) (0 : Nat) [((1 : Nat), none)]
      = .error (.panicked "makechan: size out of range") :=
  (c7_no_guard freshCtx [0] (-1) 0 [((1 : Nat), none)] rfl).1 (by decide)

/-! ### Pipeline helper lemmas -/

/-- A non-absent parent `Err()` is what the wrapping context's `Err()`
returns, whatever the local state. -/
theorem err_parent_some (parent : Ctx) (st : TCState) (e : GoErr)
    (h : Ctx.ctxErr parent = some e) : TaskContext.Err ⟨parent, st⟩ = some e := by
  unfold TaskContext.Err Ctx.ctxErr
  simp [h]

/-- Running the serial executor past an all-succeeding prefix continues on
the rest from the state the prefix reached, counting the prefix's
invocations. -/
theorem serial_append_ok {T : Type} (ctx : Ctx) (pre rest : List (TaskExecutor T))
    (req req1 : T) (h : runAllOk ctx pre req = some req1) :
    serialExecutor ctx (pre ++ rest) req
      = ⟨(serialExecutor ctx rest req1).req, (serialExecutor ctx rest req1).err,
         pre.length + (serialExecutor ctx rest req1).invoked⟩ := by
  induction pre generalizing req with
  | nil =>
      simp only [runAllOk, Option.some.injEq] at h
      subst h
      simp
  | cons t pre ih =>
      rcases hh : t ctx req with ⟨req2, ge⟩
      cases ge with
      | some e =>
          simp only [runAllOk, hh] at h
          exact Option.noConfusion h
      | none =>
          simp only [runAllOk, hh] at h
          simp only [List.cons_append, serialExecutor, hh]
          simp only [List.append_eq]
          rw [ih req2 h]
          simp only [SerialOut.mk.injEq, List.length_cons]
          refine ⟨trivial, trivial, by omega⟩

/-- When every serial step succeeds, all of them are invoked and the serial
executor ends with no error on the final state. -/
theorem serial_all_ok {T : Type} (ctx : Ctx) (tasks : List (TaskExecutor T))
    (req req1 : T) (h : runAllOk ctx tasks req = some req1) :
    serialExecutor ctx tasks req = ⟨req1, none, tasks.length⟩ := by
  have := serial_append_ok ctx tasks [] req req1 h
  simpa [serialExecutor] using this

/-- When the steps before `t` all succeed and `t` fails, the serial
executor stops at `t`: the steps after it are not invoked, the error is
`t`'s and the state is the one `t` left. -/
theorem serial_first_fail {T : Type} (ctx : Ctx) (pre post : List (TaskExecutor T))
    (t : TaskExecutor T) (req req1 v : T) (e : GoErr)
    (h1 : runAllOk ctx pre req = some req1) (h2 : t ctx req1 = (v, some e)) :
    serialExecutor ctx (pre ++ t :: post) req = ⟨v, some e, pre.length + 1⟩ := by
  have := serial_append_ok ctx pre (t :: post) req req1 h1
  rw [this]
  simp [serialExecutor, h2]

/-- The parallel executor's fold invokes exactly the scheduled indices that
name an existing step, in schedule order. -/
theorem foldl_parStepP_invoked {T : Type} (ctx : Ctx) (ptasks : List (ParallelExecutor T))
    (sched : List Nat) (acc : ParOut T) :
    (sched.foldl (parStepP ctx ptasks) acc).invoked
      = acc.invoked ++ sched.filter (fun i => i < ptasks.length) := by
  induction sched generalizing acc with
  | nil => simp
  | cons i rest ih =>
      simp only [List.foldl_cons, List.filter_cons]
      cases hi : ptasks[i]? with
      | none =>
          have hge : ptasks.length ≤ i := List.getElem?_eq_none_iff.mp hi
          have hnlt : ¬ i < ptasks.length := by omega
          rw [ih]
          simp [parStepP, hi, hnlt]
      | some t =>
          have hlt : i < ptasks.length := by
            rcases List.getElem?_eq_some_iff.mp hi with ⟨hl, _⟩
            exact hl
          rcases hr : t ctx acc.req with ⟨req2, ge⟩
          rw [ih]
          simp [parStepP, hi, hr, hlt]

/-- When every concurrent step always succeeds, the parallel executor's
collected error stays absent. -/
theorem foldl_parStepP_err_none {T : Type} (ctx : Ctx) (ptasks : List (ParallelExecutor T))
    (sched : List Nat) (acc : ParOut T)
    (hall : ∀ t ∈ ptasks, ∀ r : T, (t ctx r).2 = none) (hacc : acc.err = none) :
    (sched.foldl (parStepP ctx ptasks) acc).err = none := by
  induction sched generalizing acc with
  | nil => simpa
  | cons i rest ih =>
      simp only [List.foldl_cons]
      cases hi : ptasks[i]? with
      | none =>
          refine ih _ ?_
          simp [parStepP, hi, hacc]
      | some t =>
          have hmem : t ∈ ptasks := List.getElem?_mem hi
          rcases hr : t ctx acc.req with ⟨req2, ge⟩
          have : ge = none := by
            have := hall t hmem acc.req
            rw [hr] at this
            exact this
          subst this
          refine ih _ ?_
          simp [parStepP, hi, hr, hacc]

/-- `errors.Join` of two optional errors is absent exactly when both
are. -/
theorem goJoin_pair_none (a b : Option GoErr) :
    goJoin [a, b] = none ↔ a = none ∧ b = none := by
  cases a <;> cases b <;> simp [goJoin]

/-! ### C5: pipeline `Result` semantics -/

/-- C5: `Result()` runs the serial steps strictly in append order and stops
at the first failing one (the steps after it are not invoked); regardless
of a serial failure, every appended concurrent step is then run (on the
request state the serial phase reached) and waited for; the returned value
is the shared request in the state it reached and the returned error is the
join of the serial failure, if any, with the joined concurrent failures —
absent exactly when nothing failed. -/
theorem c5_pipeline_result {T : Type} (s : SimpleTaskRunner T) (sched : List Nat)
    (hperm : sched.Perm (List.range s.parallelTasks.length)) :
    (∀ pre : List (TaskExecutor T), ∀ t : TaskExecutor T,
      ∀ post : List (TaskExecutor T), ∀ req1 v : T, ∀ e : GoErr,
        s.tasks = pre ++ t :: post →
        runAllOk s.ctx pre s.taskReq = some req1 →
        t s.ctx req1 = (v, some e) →
        (SimpleTaskRunner.Result sched s).serialInvoked = pre.length + 1
        ∧ (SimpleTaskRunner.Result sched s).req
            = (parallelExecutor sched s.ctx s.parallelTasks v).req
        ∧ (SimpleTaskRunner.Result sched s).err
            = goJoin [some e, (parallelExecutor sched s.ctx s.parallelTasks v).err])
    ∧ (∀ req1 : T, runAllOk s.ctx s.tasks s.taskReq = some req1 →
        (SimpleTaskRunner.Result sched s).serialInvoked = s.tasks.length
        ∧ (SimpleTaskRunner.Result sched s).req
            = (parallelExecutor sched s.ctx s.parallelTasks req1).req
        ∧ (SimpleTaskRunner.Result sched s).err
            = goJoin [none, (parallelExecutor sched s.ctx s.parallelTasks req1).err])
    ∧ (SimpleTaskRunner.Result sched s).parallelInvoked = sched
    ∧ (SimpleTaskRunner.Result sched s).parallelInvoked.length = s.parallelTasks.length
    ∧ ((SimpleTaskRunner.Result sched s).err = none ↔
        (serialExecutor s.ctx s.tasks s.taskReq).err = none
        ∧ (parallelExecutor sched s.ctx s.parallelTasks
            (serialExecutor s.ctx s.tasks s.taskReq).req).err = none)
    ∧ (∀ req0 : T, (∀ t ∈ s.parallelTasks, ∀ r : T, (t s.ctx r).2 = none) →
        (parallelExecutor sched s.ctx s.parallelTasks req0).err = none) := by
  have hinv : (SimpleTaskRunner.Result sched s).parallelInvoked = sched := by
    have hfilter : sched.filter (fun i => i < s.parallelTasks.length) = sched := by
      refine List.filter_eq_self.mpr ?_
      intro a ha
      have : a ∈ List.range s.parallelTasks.length := hperm.mem_iff.mp ha
      simpa using List.mem_range.mp this
    show (parallelExecutor sched s.ctx s.parallelTasks
        (serialExecutor s.ctx s.tasks s.taskReq).req).invoked = sched
    rw [parallelExecutor, foldl_parStepP_invoked]
    simpa using hfilter
  refine ⟨?_, ?_, hinv, ?_, ?_, ?_⟩
  · intro pre t post req1 v e hsplit hpre hfail
    have hser : serialExecutor s.ctx s.tasks s.taskReq = ⟨v, some e, pre.length + 1⟩ := by
      rw [hsplit]
      exact serial_first_fail s.ctx pre post t s.taskReq req1 v e hpre hfail
    refine ⟨?_, ?_, ?_⟩ <;>
      simp [SimpleTaskRunner.Result, hser]
  · intro req1 hall
    have hser : serialExecutor s.ctx s.tasks s.taskReq = ⟨req1, none, s.tasks.length⟩ :=
      serial_all_ok s.ctx s.tasks s.taskReq req1 hall
    refine ⟨?_, ?_, ?_⟩ <;>
      simp [SimpleTaskRunner.Result, hser]
  · rw [hinv]
    rw [hperm.length_eq]
    simp
  · show goJoin [(serialExecutor s.ctx s.tasks s.taskReq).err,
        (parallelExecutor sched s.ctx s.parallelTasks
          (serialExecutor s.ctx s.tasks s.taskReq).req).err] = none ↔ _
    exact goJoin_pair_none _ _
  · intro req0 hall
    exact foldl_parStepP_err_none s.ctx s.parallelTasks sched ⟨req0, none, []⟩ hall rfl

/-- Concrete instance of C5: one succeeding serial step and one concurrent
step; both are invoked and the pipeline reports no error. -/
theorem c5_pipeline_result_witness :
    (SimpleTaskRunner.Result (List.range 1)
        (SimpleTaskRunner.Parallel
          (SimpleTaskRunner.Then (NewSimpleTaskRunner (Ctx.base none) (0 : Nat))
            (fun _ n => (n + 1, none)))
          (fun _ n => (n + 2, none)))).serialInvoked = 1
    ∧ (SimpleTaskRunner.Result (List.range 1)
        (SimpleTaskRunner.Parallel
          (SimpleTaskRunner.Then (NewSimpleTaskRunner (Ctx.base none) (0 : Nat))
            (fun _ n => (n + 1, none)))
          (fun _ n => (n + 2, none)))).parallelInvoked.length = 1 := by
  have h := c5_pipeline_result
      (SimpleTaskRunner.Parallel
        (SimpleTaskRunner.Then (NewSimpleTaskRunner (Ctx.base none) (0 : Nat))
          (fun _ n => (n + 1, none)))
        (fun _ n => (n + 2, none)))
      (List.range 1) (List.Perm.refl _)
  exact ⟨(h.2.1 1 rfl).1, h.2.2.2.1⟩

/-! ### C10: `Result` ignores the context's error state -/

/-- C10: the pipeline's `Result()` never consults the supplied context's
error or cancellation state: even when that context is already cancelled or
already carries a recorded error, the serial steps still run until the
first failure (all of them when none fails) and every appended concurrent
step still runs — while, on a `TaskContext` built over the same context,
the three execution strategies fail fast and invoke nothing. -/
theorem c10_result_ignores_ctx_err {T : Type} (s : SimpleTaskRunner T)
    (sched : List Nat) (e : GoErr) (zero : T) (fn : T × Option GoErr)
    (fns : List (T × Option GoErr))
    (hc : Ctx.ctxErr s.ctx = some e)
    (hperm : sched.Perm (List.range s.parallelTasks.length)) :
    (SimpleTaskRunner.Result sched s).parallelInvoked.length = s.parallelTasks.length
    ∧ (∀ req1 : T, runAllOk s.ctx s.tasks s.taskReq = some req1 →
        (SimpleTaskRunner.Result sched s).serialInvoked = s.tasks.length)
    ∧ (∀ pre : List (TaskExecutor T), ∀ t : TaskExecutor T,
        ∀ post : List (TaskExecutor T), ∀ req1 v : T, ∀ e2 : GoErr,
          s.tasks = pre ++ t :: post →
          runAllOk s.ctx pre s.taskReq = some req1 →
          t s.ctx req1 = (v, some e2) →
          (SimpleTaskRunner.Result sched s).serialInvoked = pre.length + 1)
    ∧ (Run ⟨s.ctx, ⟨none, []⟩⟩ zero fn).invoked = 0
    ∧ (RunParallel sched ⟨s.ctx, ⟨none, []⟩⟩ zero fns).invoked = []
    ∧ (∀ limit : Int, RunParallelWithLimit sched ⟨s.ctx, ⟨none, []⟩⟩ limit zero fns
        = .ok ⟨⟨s.ctx, ⟨none, []⟩⟩, [], some e, []⟩) := by
  have herr : TaskContext.Err ⟨s.ctx, ⟨none, []⟩⟩ = some e :=
    err_parent_some s.ctx ⟨none, []⟩ e hc
  have hfilter : sched.filter (fun i => i < s.parallelTasks.length) = sched := by
    refine List.filter_eq_self.mpr ?_
    intro a ha
    have : a ∈ List.range s.parallelTasks.length := hperm.mem_iff.mp ha
    simpa using List.mem_range.mp this
  refine ⟨?_, ?_, ?_, ?_, ?_, ?_⟩
  · show (parallelExecutor sched s.ctx s.parallelTasks
        (serialExecutor s.ctx s.tasks s.taskReq).req).invoked.length = _
    rw [parallelExecutor, foldl_parStepP_invoked]
    simp [hfilter, hperm.length_eq]
  · intro req1 hall
    have hser := serial_all_ok s.ctx s.tasks s.taskReq req1 hall
    simp [SimpleTaskRunner.Result, hser]
  · intro pre t post req1 v e2 hsplit hpre hfail
    have hser : serialExecutor s.ctx s.tasks s.taskReq = ⟨v, some e2, pre.length + 1⟩ := by
      rw [hsplit]
      exact serial_first_fail s.ctx pre post t s.taskReq req1 v e2 hpre hfail
    simp [SimpleTaskRunner.Result, hser]
  · simp [Run, herr]
  · simp [RunParallel, herr]
  · intro limit
    simp [RunParallelWithLimit, herr]

/-- Concrete instance of C10: a pipeline over a cancelled context still
invokes its serial step and its concurrent step. -/
theorem c10_result_ignores_ctx_err_witness :
    (SimpleTaskRunner.Result (List.range 1)
        (SimpleTaskRunner.Parallel
          (SimpleTaskRunner.Then
            (NewSimpleTaskRunner (Ctx.base (some (GoErr.base "context canceled"))) (0 : Nat))
            (fun _ n => (n + 1, none)))
          (fun _ n => (n + 5, none)))).parallelInvoked.length = 1
    ∧ (SimpleTaskRunner.Result (List.range 1)
        (SimpleTaskRunner.Parallel
          (SimpleTaskRunner.Then
            (NewSimpleTaskRunner (Ctx.base (some (GoErr.base "context canceled"))) (0 : Nat))
            (fun _ n => (n + 1, none)))
          (fun _ n => (n + 5, none)))).serialInvoked = 1 := by
  have h := c10_result_ignores_ctx_err
      (SimpleTaskRunner.Parallel
        (SimpleTaskRunner.Then
          (NewSimpleTaskRunner (Ctx.base (some (GoErr.base "context canceled"))) (0 : Nat))
          (fun _ n => (n + 1, none)))
        (fun _ n => (n + 5, none)))
      (List.range 1) (GoErr.base "context canceled") (0 : Nat) (0, none) []
      rfl (List.Perm.refl _)
  exact ⟨h.1, h.2.1 1 rfl⟩

end GoUtils
